import Mathlib

/-!
Verification development for the NCCN guidelines MCP server.

The repository ships one source file, `server.py`, which is the tool-dispatch
layer.  The core engine modules it calls (`read_pdf.PDFReader`,
`nccn_login_downloader.NCCNDownloader`, `nccn_get_index.ensure_nccn_index`)
are not part of the source tree; where a claim depends on them they are
modelled from the specification, and each such definition says so in its
doc comment.  Everything that lives in `server.py` (path resolution, message
construction, credential selection, the empty-content check) is embedded
directly from that file.
-/

namespace NCCN

instance {ε α : Type} [DecidableEq ε] [DecidableEq α] :
    DecidableEq (Except ε α) := fun
  | .ok a, .ok b =>
    if h : a = b then .isTrue (by rw [h]) else .isFalse (fun hh => h (Except.ok.inj hh))
  | .ok _, .error _ => .isFalse Except.noConfusion
  | .error _, .ok _ => .isFalse Except.noConfusion
  | .error e, .error f =>
    if h : e = f then .isTrue (by rw [h]) else .isFalse (fun hh => h (Except.error.inj hh))

/-! ## Basic utilities: character-level splitting and decimal numerals -/

/-- Split a character list on a separator character; the separator is dropped.
`splitOnChar c l` always returns a non-empty list of chunks; this is the
character-level model of Python's `str.split(c)` as used for comma-separated
selector tokens. -/
def splitOnChar (sep : Char) : List Char → List (List Char)
  | [] => [[]]
  | c :: cs =>
    let rest := splitOnChar sep cs
    if c = sep then [] :: rest
    else match rest with
      | [] => [[c]]
      | r :: rs => (c :: r) :: rs

/-- The decimal digit character for `n < 10` (clamped at `'9'`). -/
def digitChar : Nat → Char
  | 0 => '0' | 1 => '1' | 2 => '2' | 3 => '3' | 4 => '4'
  | 5 => '5' | 6 => '6' | 7 => '7' | 8 => '8' | _ => '9'

/-- Fuel-driven decimal rendering (most significant digit first). -/
def natCharsAux : Nat → Nat → List Char
  | 0, _ => []
  | fuel + 1, n =>
    if n < 10 then [digitChar n]
    else natCharsAux fuel (n / 10) ++ [digitChar (n % 10)]

/-- The decimal digit characters of `n`, most significant first: the model of
Python's `str(n)` for a natural number. -/
def natChars (n : Nat) : List Char := natCharsAux (n + 1) n

/-- Decimal rendering of a natural number as a string. -/
def natRepr (n : Nat) : String := String.mk (natChars n)

/-- Numeric value of a decimal digit character. -/
def charVal (c : Char) : Nat := c.toNat - 48

/-- Consume a maximal run of decimal digits, accumulating their value. -/
def takeDigits : List Char → Nat → Nat × List Char
  | [], acc => (acc, [])
  | c :: cs, acc =>
    if c.isDigit then takeDigits cs (acc * 10 + charVal c) else (acc, c :: cs)

/-- Parse a non-empty run of decimal digits from the front of a character
list, returning its value and the rest. -/
def scanNat : List Char → Option (Nat × List Char)
  | [] => none
  | c :: cs => if c.isDigit then some (takeDigits (c :: cs) 0) else none

/-- Parse an optionally `'-'`-signed integer from the front of a character
list. -/
def scanInt : List Char → Option (Int × List Char)
  | '-' :: cs => (scanNat cs).map fun p => (-(p.1 : Int), p.2)
  | cs => (scanNat cs).map fun p => ((p.1 : Int), p.2)

/-! ## PageRangeExtractor: selector grammar (spec-modelled) -/

/-- Reason component of a selector failure. -/
inductive SelectorReason where
  | out_of_range
  | malformed_token
deriving DecidableEq, Repr

/-- A selector failure: the reason plus the raw token it blames. -/
structure SelectorError where
  reason : SelectorReason
  token : String
deriving DecidableEq, Repr

/-- A parsed selector token: either a single (possibly negative) index or an
inclusive range between two such indices. -/
inductive Token where
  | single (i : Int)
  | range (a b : Int)
deriving DecidableEq, Repr

/-- Modelled from the spec: a token of `PageRangeExtractor`'s grammar
(`read_pdf.PDFReader` is not in the source tree) — a single integer `n`, or a
range `a-b` where each bound follows the same integer rules. -/
def parseToken (cs : List Char) : Option Token :=
  match scanInt cs with
  | none => none
  | some (a, rest) =>
    match rest with
    | [] => some (.single a)
    | '-' :: rest2 =>
      match scanInt rest2 with
      | some (b, []) => some (.range a b)
      | _ => none
    | _ => none

/-- Modelled from the spec: negative indices are mapped to
`page_count + index + 1` before range expansion. -/
def resolveIdx (page_count : Nat) (i : Int) : Int :=
  if i < 0 then (page_count : Int) + i + 1 else i

/-- Modelled from the spec: any resolved index outside `[1, page_count]` is a
`SelectorError{reason: out_of_range, token}` naming the raw token. -/
def checkIdx (page_count : Nat) (tok : List Char) (i : Int) :
    Except SelectorError Nat :=
  let r := resolveIdx page_count i
  if 1 ≤ r ∧ r ≤ (page_count : Int) then .ok r.toNat
  else .error ⟨.out_of_range, String.mk tok⟩

/-- Modelled from the spec: expand one raw token into the list of pages it
denotes (`a-b` yields every page from `a` to `b` inclusive, ascending). -/
def expandTok (page_count : Nat) (tok : List Char) :
    Except SelectorError (List Nat) :=
  match parseToken tok with
  | none => .error ⟨.malformed_token, String.mk tok⟩
  | some (.single i) => do
    let r ← checkIdx page_count tok i
    return [r]
  | some (.range a b) => do
    let ra ← checkIdx page_count tok a
    let rb ← checkIdx page_count tok b
    if ra ≤ rb then return List.range' ra (rb - ra + 1)
    else .error ⟨.malformed_token, String.mk tok⟩

/-- Collect the pages denoted by a list of raw tokens, in token order, failing
on the first bad token. -/
def collectToks (page_count : Nat) : List (List Char) →
    Except SelectorError (List Nat)
  | [] => .ok []
  | t :: ts => do
    let xs ← expandTok page_count t
    let rest ← collectToks page_count ts
    return xs ++ rest

/-- Insert into a `(· ≤ ·)`-sorted list, keeping it sorted. -/
def insertLe (x : Nat) : List Nat → List Nat
  | [] => [x]
  | y :: ys => if x ≤ y then x :: y :: ys else y :: insertLe x ys

/-- Insertion sort by `(· ≤ ·)`. -/
def sortLe (l : List Nat) : List Nat := l.foldr insertLe []

/-- Sort ascending and remove duplicates: the normal form of a selector set. -/
def sortDedup (l : List Nat) : List Nat := (sortLe l).dedup

/-- The raw comma-separated tokens of a selector string. -/
def tokensOf (raw : String) : List (List Char) := splitOnChar ',' raw.toList

/-- Modelled from the spec: `parse_selector(raw, page_count)` of
`PageRangeExtractor` (`read_pdf.PDFReader` is not in the source tree).
An absent/empty selector denotes every page; otherwise the comma-separated
tokens are expanded and the result is de-duplicated and sorted ascending. -/
def parse_selector (raw : String) (page_count : Nat) :
    Except SelectorError (List Nat) :=
  if raw = "" then .ok (List.range' 1 page_count)
  else (collectToks page_count (tokensOf raw)).map sortDedup

/-- Page-boundary separator used when concatenating page texts (the concrete
separator of the missing `read_pdf.PDFReader` is unknown; the spec only
requires "a page boundary separator", and `server.py` treats an all-whitespace
result as empty content). -/
def pageSeparator : String := "\n\n"

/-- Join page segments with the page-boundary separator. -/
def joinSep : List String → String
  | [] => ""
  | [s] => s
  | s :: rest => s ++ pageSeparator ++ joinSep rest

/-- The text of 1-based page `i` of a document modelled as its list of page
texts; a page with no extractable text is the empty string. -/
def pageText (doc : List String) (i : Nat) : String := (doc.get? (i - 1)).getD ""

/-- Modelled from the spec: `extract(document, selector_or_none)` — parse the
selector against the document's page count, pull each selected page's text in
ascending order, and join with the page-boundary separator.  Pages with no
text contribute an empty segment. -/
def extract (doc : List String) (sel : Option String) :
    Except SelectorError String :=
  (parse_selector (sel.getD "") doc.length).map fun pages =>
    joinSep (pages.map (pageText doc))

/-! ## Lemmas about sorting and de-duplication -/

theorem insertLe_perm (x : Nat) (l : List Nat) : (insertLe x l).Perm (x :: l) := by
  induction l with
  | nil => simp [insertLe]
  | cons y ys ih =>
    simp only [insertLe]
    by_cases h : x ≤ y
    · simp [h]
    · simp only [h, if_false]
      exact (ih.cons y).trans (List.Perm.swap x y ys)

theorem mem_insertLe {b x : Nat} {l : List Nat} :
    b ∈ insertLe x l ↔ b = x ∨ b ∈ l := by
  rw [(insertLe_perm x l).mem_iff]; simp

theorem sortLe_perm (l : List Nat) : (sortLe l).Perm l := by
  induction l with
  | nil => simp [sortLe]
  | cons x xs ih =>
    simp only [sortLe, List.foldr_cons]
    exact (insertLe_perm x _).trans (ih.cons x)

theorem insertLe_sorted {l : List Nat} (x : Nat)
    (h : l.Sorted (· ≤ ·)) : (insertLe x l).Sorted (· ≤ ·) := by
  induction l with
  | nil => simp [insertLe]
  | cons y ys ih =>
    rw [List.sorted_cons] at h
    simp only [insertLe]
    by_cases hxy : x ≤ y
    · rw [if_pos hxy, List.sorted_cons]
      refine ⟨?_, by rw [List.sorted_cons]; exact h⟩
      intro b hb
      rcases List.mem_cons.mp hb with hb | hb
      · subst hb; exact hxy
      · exact le_trans hxy (h.1 b hb)
    · rw [if_neg hxy, List.sorted_cons]
      refine ⟨?_, ih h.2⟩
      intro b hb
      rcases mem_insertLe.mp hb with hb | hb
      · subst hb; omega
      · exact h.1 b hb

theorem sortLe_sorted (l : List Nat) : (sortLe l).Sorted (· ≤ ·) := by
  induction l with
  | nil => simp [sortLe]
  | cons x xs ih => exact insertLe_sorted x ih

theorem sortLe_eq_of_perm {l₁ l₂ : List Nat} (h : l₁.Perm l₂) :
    sortLe l₁ = sortLe l₂ :=
  List.eq_of_perm_of_sorted
    (((sortLe_perm l₁).trans h).trans (sortLe_perm l₂).symm)
    (sortLe_sorted l₁) (sortLe_sorted l₂)

theorem sortDedup_eq_of_perm {l₁ l₂ : List Nat} (h : l₁.Perm l₂) :
    sortDedup l₁ = sortDedup l₂ := by
  unfold sortDedup
  rw [sortLe_eq_of_perm h]

theorem sortLe_eq_self {l : List Nat} (h : l.Sorted (· ≤ ·)) :
    sortLe l = l :=
  List.eq_of_perm_of_sorted (sortLe_perm l) (sortLe_sorted l) h

theorem sortDedup_eq_self {l : List Nat} (h : l.Sorted (· < ·)) :
    sortDedup l = l := by
  unfold sortDedup
  rw [sortLe_eq_self (h.imp le_of_lt)]
  exact List.dedup_eq_self.mpr h.nodup

theorem sortDedup_sorted_lt (l : List Nat) :
    (sortDedup l).Sorted (· < ·) := by
  unfold sortDedup
  exact List.Sorted.lt_of_le
    (List.Pairwise.sublist (List.dedup_sublist _) (sortLe_sorted l))
    (List.nodup_dedup _)

/-! ## Lemmas about token collection -/

/-- The pages one token contributes when it expands successfully (and `[]`
when it does not); used to relate `collectToks` to a `flatMap`. -/
def expandPages (page_count : Nat) (tok : List Char) : List Nat :=
  match expandTok page_count tok with
  | .ok xs => xs
  | .error _ => []

theorem collect_ok_eq {page_count : Nat} {ts : List (List Char)}
    {l : List Nat} (h : collectToks page_count ts = .ok l) :
    l = ts.flatMap (expandPages page_count) := by
  induction ts generalizing l with
  | nil =>
    simp only [collectToks] at h
    cases h
    simp
  | cons t ts ih =>
    simp only [collectToks, bind, Except.bind] at h
    cases he : expandTok page_count t with
    | error e => rw [he] at h; cases h
    | ok xs =>
      rw [he] at h
      cases hc : collectToks page_count ts with
      | error e => rw [hc] at h; cases h
      | ok rest =>
        rw [hc] at h
        simp only [pure, Except.pure, Except.ok.injEq] at h
        subst h
        rw [List.flatMap_cons, ← ih hc]
        unfold expandPages
        rw [he]

theorem splitOnChar_ne_nil (sep : Char) (cs : List Char) :
    splitOnChar sep cs ≠ [] := by
  cases cs with
  | nil => simp [splitOnChar]
  | cons c cs =>
    simp only [splitOnChar]
    by_cases h : c = sep
    · simp [h]
    · simp only [h, if_false]
      cases splitOnChar sep cs <;> simp

theorem splitOnChar_eq_single_nil {sep : Char} {cs : List Char}
    (h : splitOnChar sep cs = [[]]) : cs = [] := by
  cases cs with
  | nil => rfl
  | cons c cs =>
    exfalso
    simp only [splitOnChar] at h
    by_cases hc : c = sep
    · rw [if_pos hc] at h
      have := splitOnChar_ne_nil sep cs
      cases hs : splitOnChar sep cs with
      | nil => exact this hs
      | cons r rs => rw [hs] at h; simp at h
    · rw [if_neg hc] at h
      cases hs : splitOnChar sep cs with
      | nil => rw [hs] at h; simp at h
      | cons r rs => rw [hs] at h; simp at h

theorem string_eq_empty_of_toList {s : String} (h : s.toList = []) :
    s = "" := by
  cases s with
  | mk data =>
    simp only [String.toList] at h
    simp [h]

/-! ## Structure of successful selector parses -/

theorem parse_ok_of_ne_empty {raw : String} {page_count : Nat}
    {l : List Nat} (hne : raw ≠ "")
    (h : parse_selector raw page_count = .ok l) :
    ∃ c, collectToks page_count (tokensOf raw) = .ok c ∧ l = sortDedup c := by
  unfold parse_selector at h
  rw [if_neg hne] at h
  cases hc : collectToks page_count (tokensOf raw) with
  | error e => rw [hc] at h; simp [Except.map] at h
  | ok c =>
    rw [hc] at h
    simp only [Except.map, Except.ok.injEq] at h
    exact ⟨c, rfl, h.symm⟩

theorem parse_ok_sorted {raw : String} {page_count : Nat} {l : List Nat}
    (h : parse_selector raw page_count = .ok l) : l.Sorted (· < ·) := by
  by_cases hne : raw = ""
  · subst hne
    unfold parse_selector at h
    rw [if_pos rfl] at h
    cases h
    exact List.pairwise_lt_range' 1 page_count
  · obtain ⟨c, _, hl⟩ := parse_ok_of_ne_empty hne h
    subst hl
    exact sortDedup_sorted_lt c

theorem parse_eq_of_perm {s₁ s₂ : String} {page_count : Nat}
    {l₁ l₂ : List Nat} (hperm : (tokensOf s₁).Perm (tokensOf s₂))
    (h₁ : parse_selector s₁ page_count = .ok l₁)
    (h₂ : parse_selector s₂ page_count = .ok l₂) : l₁ = l₂ := by
  by_cases he₁ : s₁ = ""
  · subst he₁
    have htok : tokensOf "" = [[]] := rfl
    rw [htok] at hperm
    have h2e : s₂ = "" := by
      have := List.perm_singleton.mp hperm.symm
      exact string_eq_empty_of_toList (splitOnChar_eq_single_nil this)
    subst h2e
    rw [h₁] at h₂
    exact Except.ok.inj h₂
  · have he₂ : s₂ ≠ "" := by
      intro h2e
      subst h2e
      have htok : tokensOf "" = [[]] := rfl
      rw [htok] at hperm
      exact he₁ (string_eq_empty_of_toList
        (splitOnChar_eq_single_nil (List.perm_singleton.mp hperm)))
    obtain ⟨c₁, hc₁, hl₁⟩ := parse_ok_of_ne_empty he₁ h₁
    obtain ⟨c₂, hc₂, hl₂⟩ := parse_ok_of_ne_empty he₂ h₂
    subst hl₁; subst hl₂
    refine sortDedup_eq_of_perm ?_
    rw [collect_ok_eq hc₁, collect_ok_eq hc₂]
    exact hperm.flatMap_right (expandPages page_count)

/-- C3: for every pair of valid selector strings that denote the same pages in
different token order, `parse_selector` returns the same de-duplicated set
sorted ascending, and `extract` on the same document yields identical output
whose page segments follow ascending document order, never selector-string
order. -/
theorem extract_order_independent (doc : List String) (s₁ s₂ : String)
    (l₁ l₂ : List Nat)
    (hperm : (tokensOf s₁).Perm (tokensOf s₂))
    (h₁ : parse_selector s₁ doc.length = .ok l₁)
    (h₂ : parse_selector s₂ doc.length = .ok l₂) :
    l₁ = l₂ ∧ l₁.Sorted (· < ·) ∧
      extract doc (some s₁) = extract doc (some s₂) ∧
      extract doc (some s₁) = .ok (joinSep (l₁.map (pageText doc))) := by
  have heq := parse_eq_of_perm hperm h₁ h₂
  subst heq
  refine ⟨rfl, parse_ok_sorted h₁, ?_, ?_⟩
  · unfold extract
    simp only [Option.getD_some]
    rw [h₁, h₂]
  · unfold extract
    simp only [Option.getD_some]
    rw [h₁]
    rfl

theorem extract_order_independent_witness :
    (tokensOf "3,1").Perm (tokensOf "1,3") ∧
    parse_selector "3,1" 3 = .ok [1, 3] ∧
    parse_selector "1,3" 3 = .ok [1, 3] ∧
    (([1, 3] : List Nat) = [1, 3] ∧ ([1, 3] : List Nat).Sorted (· < ·) ∧
      extract ["a", "b", "c"] (some "3,1") = extract ["a", "b", "c"] (some "1,3") ∧
      extract ["a", "b", "c"] (some "3,1") =
        .ok (joinSep ([1, 3].map (pageText ["a", "b", "c"])))) :=
  ⟨by decide, by decide, by decide,
    extract_order_independent ["a", "b", "c"] "3,1" "1,3" [1, 3] [1, 3]
      (by decide) (by decide) (by decide)⟩

/-! ## Decimal numerals round-trip through the token scanner -/

theorem digitChar_isDigit {n : Nat} (h : n < 10) :
    (digitChar n).isDigit = true := by
  interval_cases n <;> decide

theorem charVal_digitChar {n : Nat} (h : n < 10) :
    charVal (digitChar n) = n := by
  interval_cases n <;> decide

theorem natCharsAux_ne_nil {fuel n : Nat} (h : n < fuel) :
    natCharsAux fuel n ≠ [] := by
  cases fuel with
  | zero => omega
  | succ fuel =>
    simp only [natCharsAux]
    by_cases h10 : n < 10
    · simp [h10]
    · simp [h10]

theorem natCharsAux_all_digit {fuel n : Nat} (h : n < fuel) :
    ∀ c ∈ natCharsAux fuel n, c.isDigit = true := by
  induction fuel generalizing n with
  | zero => omega
  | succ fuel ih =>
    simp only [natCharsAux]
    by_cases h10 : n < 10
    · simp only [h10, if_true, List.mem_singleton]
      intro c hc
      subst hc
      exact digitChar_isDigit h10
    · simp only [h10, if_false, List.mem_append, List.mem_singleton]
      intro c hc
      rcases hc with hc | hc
      · exact ih (by omega) c hc
      · subst hc
        exact digitChar_isDigit (Nat.mod_lt n (by omega))

theorem takeDigits_natCharsAux {fuel n : Nat} (h : n < fuel)
    (acc : Nat) (rest : List Char) :
    takeDigits (natCharsAux fuel n ++ rest) acc =
      takeDigits rest (acc * 10 ^ (natCharsAux fuel n).length + n) := by
  induction fuel generalizing n acc rest with
  | zero => omega
  | succ fuel ih =>
    simp only [natCharsAux]
    by_cases h10 : n < 10
    · simp only [h10, if_true, List.singleton_append, List.length_singleton,
        pow_one]
      simp only [takeDigits, digitChar_isDigit h10, if_true,
        charVal_digitChar h10]
    · simp only [h10, if_false, List.append_assoc, List.singleton_append,
        List.length_append, List.length_singleton]
      rw [ih (show n / 10 < fuel by omega)]
      have hd : (n % 10) < 10 := Nat.mod_lt n (by omega)
      simp only [takeDigits, digitChar_isDigit hd, if_true,
        charVal_digitChar hd]
      congr 1
      have hpow : 10 ^ ((natCharsAux fuel (n / 10)).length + 1) =
          10 ^ (natCharsAux fuel (n / 10)).length * 10 := pow_succ 10 _
      rw [hpow]
      have hdm : 10 * (n / 10) + n % 10 = n := Nat.div_add_mod n 10
      ring_nf
      omega

theorem scanNat_natChars (n : Nat) : scanNat (natChars n) = some (n, []) := by
  have hlt : n < n + 1 := Nat.lt_succ_self n
  have hne := natCharsAux_ne_nil hlt
  have hall := natCharsAux_all_digit hlt
  have htake : takeDigits (natCharsAux (n + 1) n ++ []) 0 =
      takeDigits [] (0 * 10 ^ (natCharsAux (n + 1) n).length + n) :=
    takeDigits_natCharsAux hlt 0 []
  rw [List.append_nil] at htake
  simp only [takeDigits, Nat.zero_mul, Nat.zero_add] at htake
  unfold natChars
  cases heq : natCharsAux (n + 1) n with
  | nil => exact absurd heq hne
  | cons c cs =>
    have hc : c.isDigit = true := by
      apply hall
      rw [heq]
      exact List.mem_cons_self c cs
    simp only [scanNat, hc, if_true]
    rw [← heq, htake]

theorem scanInt_cons_of_ne {c : Char} {cs : List Char} (h : c ≠ '-') :
    scanInt (c :: cs) = (scanNat (c :: cs)).map fun p => ((p.1 : Int), p.2) := by
  unfold scanInt
  split
  · next heq => exact absurd (List.head_eq_of_cons_eq heq) h
  · rfl

theorem scanInt_natChars (n : Nat) :
    scanInt (natChars n) = some ((n : Int), []) := by
  have hlt : n < n + 1 := Nat.lt_succ_self n
  have hne := natCharsAux_ne_nil hlt
  have hall := natCharsAux_all_digit hlt
  have hs := scanNat_natChars n
  unfold natChars at hs ⊢
  cases heq : natCharsAux (n + 1) n with
  | nil => exact absurd heq hne
  | cons c cs =>
    have hc : c.isDigit = true := by
      apply hall
      rw [heq]
      exact List.mem_cons_self c cs
    have hcne : c ≠ '-' := by
      intro hcc
      rw [hcc] at hc
      exact absurd hc (by decide)
    rw [heq] at hs
    rw [scanInt_cons_of_ne hcne, hs]
    rfl

theorem parseToken_natChars (n : Nat) :
    parseToken (natChars n) = some (.single (n : Int)) := by
  unfold parseToken
  rw [scanInt_natChars]

theorem comma_not_mem_natChars (n : Nat) : ',' ∉ natChars n := by
  intro hmem
  have := natCharsAux_all_digit (Nat.lt_succ_self n) ',' hmem
  exact absurd this (by decide)

theorem splitOnChar_of_not_mem {sep : Char} {cs : List Char}
    (h : sep ∉ cs) : splitOnChar sep cs = [cs] := by
  induction cs with
  | nil => rfl
  | cons c cs ih =>
    simp only [List.mem_cons, not_or] at h
    simp only [splitOnChar]
    rw [if_neg (fun hc => h.1 hc.symm)]
    rw [ih h.2]

theorem natRepr_ne_empty (n : Nat) : natRepr n ≠ "" := by
  intro h
  have : natChars n = [] := congrArg String.data h
  exact absurd this (natCharsAux_ne_nil (Nat.lt_succ_self n))

/-! ## Selector resolution theorems -/

theorem checkIdx_ok {N : Nat} {tok : List Char} {i : Int}
    (h1 : 1 ≤ resolveIdx N i) (h2 : resolveIdx N i ≤ (N : Int)) :
    checkIdx N tok i = .ok (resolveIdx N i).toNat := by
  unfold checkIdx
  rw [if_pos ⟨h1, h2⟩]

theorem checkIdx_error {N : Nat} {tok : List Char} {i : Int}
    (h : resolveIdx N i < 1 ∨ (N : Int) < resolveIdx N i) :
    checkIdx N tok i = .error ⟨.out_of_range, String.mk tok⟩ := by
  unfold checkIdx
  rw [if_neg (by omega)]

theorem expandTok_single_error {N : Nat} {tok : List Char} {i : Int}
    (hpt : parseToken tok = some (.single i))
    (h : resolveIdx N i < 1 ∨ (N : Int) < resolveIdx N i) :
    expandTok N tok = .error ⟨.out_of_range, String.mk tok⟩ := by
  simp only [expandTok, hpt, checkIdx_error h]
  rfl

theorem parse_selector_single_oob {N : Nat} {tok : List Char} {i : Int}
    (hpt : parseToken tok = some (.single i))
    (hoob : resolveIdx N i < 1 ∨ (N : Int) < resolveIdx N i)
    (hne : tok ≠ []) (hnc : ',' ∉ tok) :
    parse_selector (String.mk tok) N = .error ⟨.out_of_range, String.mk tok⟩ := by
  have hraw : String.mk tok ≠ "" := by
    intro h
    exact hne (congrArg String.data h)
  unfold parse_selector
  rw [if_neg hraw]
  have htoks : tokensOf (String.mk tok) = [tok] := splitOnChar_of_not_mem hnc
  rw [htoks]
  simp only [collectToks, expandTok_single_error hpt hoob]
  rfl

/-- C2 (amended): for every page_count `N ≥ 1`, negative indices resolve to
`N + i + 1` before range expansion, so `parse_selector "-1" N = [N]`, and —
for `N ≥ 2` — `parse_selector "-2--1" N = [N-1, N]` (at `N = 1` the bound `-2`
resolves to `0`, which is out of range); the decimal token for `N + 1`
resolves out of `[1, N]` and fails with `out_of_range` naming that token, and
in general any single-index token whose resolved index lies outside `[1, N]`
makes `parse_selector` fail with `out_of_range` naming that token. -/
theorem parse_selector_resolution (N : Nat) (hN : 1 ≤ N) :
    parse_selector "-1" N = .ok [N] ∧
    (2 ≤ N → parse_selector "-2--1" N = .ok [N - 1, N]) ∧
    parse_selector (natRepr (N + 1)) N =
      .error ⟨.out_of_range, natRepr (N + 1)⟩ ∧
    (∀ (i : Int) (tok : List Char), parseToken tok = some (.single i) →
      (resolveIdx N i < 1 ∨ (N : Int) < resolveIdx N i) →
      tok ≠ [] → ',' ∉ tok →
      parse_selector (String.mk tok) N =
        .error ⟨.out_of_range, String.mk tok⟩) := by
  refine ⟨?_, ?_, ?_, ?_⟩
  · -- parse_selector "-1" N = .ok [N]
    have hpt : parseToken ['-', '1'] = some (.single (-1)) := rfl
    have hres : resolveIdx N (-1) = (N : Int) := by
      unfold resolveIdx
      rw [if_pos (by omega)]
      omega
    have hchk : checkIdx N ['-', '1'] (-1) = .ok N := by
      rw [checkIdx_ok (by omega) (by omega), hres, Int.toNat_natCast]
    have hexp : expandTok N ['-', '1'] = .ok [N] := by
      simp only [expandTok, hpt, hchk]
      rfl
    have hcol : collectToks N [['-', '1']] = .ok [N] := by
      simp only [collectToks, hexp]
      rfl
    unfold parse_selector
    rw [if_neg (by decide)]
    have htoks : tokensOf "-1" = [['-', '1']] := rfl
    rw [htoks, hcol]
    simp only [Except.map, Except.ok.injEq]
    exact sortDedup_eq_self (by simp)
  · -- parse_selector "-2--1" N = .ok [N-1, N] for N ≥ 2
    intro hN2
    have hpt : parseToken ['-', '2', '-', '-', '1'] =
        some (.range (-2) (-1)) := rfl
    have hra : resolveIdx N (-2) = (N : Int) - 1 := by
      unfold resolveIdx
      rw [if_pos (by omega)]
      omega
    have hrb : resolveIdx N (-1) = (N : Int) := by
      unfold resolveIdx
      rw [if_pos (by omega)]
      omega
    have hchka : checkIdx N ['-', '2', '-', '-', '1'] (-2) = .ok (N - 1) := by
      rw [checkIdx_ok (by omega) (by omega), hra]
      congr 1
      omega
    have hchkb : checkIdx N ['-', '2', '-', '-', '1'] (-1) = .ok N := by
      rw [checkIdx_ok (by omega) (by omega), hrb, Int.toNat_natCast]
    have hexp : expandTok N ['-', '2', '-', '-', '1'] = .ok [N - 1, N] := by
      simp only [expandTok, hpt, hchka, hchkb, bind, Except.bind]
      rw [if_pos (show N - 1 ≤ N by omega)]
      have hlen : N - (N - 1) + 1 = 2 := by omega
      rw [hlen]
      have hrange : List.range' (N - 1) 2 = [N - 1, N] := by
        simp [List.range']
        omega
      rw [hrange]
      rfl
    have hcol : collectToks N [['-', '2', '-', '-', '1']] = .ok [N - 1, N] := by
      simp only [collectToks, hexp]
      rfl
    unfold parse_selector
    rw [if_neg (by decide)]
    have htoks : tokensOf "-2--1" = [['-', '2', '-', '-', '1']] := rfl
    rw [htoks, hcol]
    simp only [Except.map, Except.ok.injEq]
    exact sortDedup_eq_self (by simp; omega)
  · -- the token str(N+1) is out of range
    have hres : resolveIdx N ((N + 1 : Nat) : Int) = ((N + 1 : Nat) : Int) := by
      unfold resolveIdx
      rw [if_neg (by omega)]
    exact parse_selector_single_oob (parseToken_natChars (N + 1))
      (by rw [hres]; omega)
      (natCharsAux_ne_nil (Nat.lt_succ_self (N + 1)))
      (comma_not_mem_natChars (N + 1))
  · intro i tok hpt hoob hne hnc
    exact parse_selector_single_oob hpt hoob hne hnc

/-- C2 counterexample: at `N = 1` the claimed equation
`parse_selector "-2--1" N = {N-1, N}` fails — the resolved lower bound is
`0`, out of `[1, 1]`, so the parse reports `out_of_range` instead of
returning `{0, 1}`. -/
theorem parse_selector_neg_range_at_one :
    parse_selector "-2--1" 1 = .error ⟨.out_of_range, "-2--1"⟩ ∧
    parse_selector "-2--1" 1 ≠ .ok [0, 1] := by
  refine ⟨by decide, by decide⟩

theorem parse_selector_resolution_witness :
    1 ≤ 3 ∧
    (parse_selector "-1" 3 = .ok [3] ∧
      (2 ≤ 3 → parse_selector "-2--1" 3 = .ok [3 - 1, 3]) ∧
      parse_selector (natRepr (3 + 1)) 3 =
        .error ⟨.out_of_range, natRepr (3 + 1)⟩ ∧
      (∀ (i : Int) (tok : List Char), parseToken tok = some (.single i) →
        (resolveIdx 3 i < 1 ∨ (3 : Int) < resolveIdx 3 i) →
        tok ≠ [] → ',' ∉ tok →
        parse_selector (String.mk tok) 3 =
          .error ⟨.out_of_range, String.mk tok⟩)) :=
  ⟨by decide, parse_selector_resolution 3 (by decide)⟩

/-! ## DocumentFetcher (spec-modelled) and the `download_pdf` tool layer -/

/-- A username/password pair; absence of credentials means anonymous mode. -/
structure Credentials where
  username : String
  password : String
deriving DecidableEq, Repr

/-- A fetch outcome: success flag plus the target filename, which is always
populated even on failure. -/
structure FetchResult where
  success : Bool
  filename : String
deriving DecidableEq, Repr

/-- What the remote site answers to one request: a byte body, an
authentication-required rejection, or a network failure. -/
inductive RemoteResp where
  | ok (bytes : List Nat)
  | authRequired
  | netErr
deriving DecidableEq, Repr

/-- The network environment: the site's response to a URL fetched with or
without credentials, and whether a login handshake with given credentials
succeeds. -/
structure NetEnv where
  resp : String → Option Credentials → RemoteResp
  authOk : Credentials → Bool

/-- The filesystem modelled as a map from full path to file size. -/
def FS : Type := String → Option Nat

/-- Does `fs` hold a non-empty file at `path`? -/
def existsNonEmpty (fs : FS) (path : String) : Bool :=
  match fs path with
  | some sz => decide (0 < sz)
  | none => false

/-- Write a file of the given size at `path`. -/
def writeFile (fs : FS) (path : String) (sz : Nat) : FS :=
  fun q => if q = path then some sz else fs q

/-- Modelled from the spec: the deterministic target filename for a URL — its
final path segment, with a fallback name when the segment is empty. -/
def filenameOf (url : String) : String :=
  let seg := ((splitOnChar '/' url.toList).getLast?).getD []
  if seg = [] then "downloaded.pdf" else String.mk seg

/-- The observable outcome of one `download` call: the returned result, the
filesystem afterwards, and whether the call touched the network. -/
structure DLOutcome where
  result : FetchResult
  fs : FS
  network : Bool

/-- Modelled from the spec: `DocumentFetcher.download(url, target_dir,
credentials_or_none, skip_if_exists)` of the missing
`nccn_login_downloader.NCCNDownloader`.  If `skip_if_exists` and the target
file exists non-empty, succeed with no network I/O; otherwise fetch
(authenticating first when credentials are supplied) and convert every
network, authentication, or handshake fault into a `success=false` result
naming the attempted filename. -/
def download (env : NetEnv) (fs : FS) (url dir : String)
    (creds : Option Credentials) (skip_if_exists : Bool) : DLOutcome :=
  let fname := filenameOf url
  let target := dir ++ "/" ++ fname
  if skip_if_exists && existsNonEmpty fs target then
    ⟨⟨true, fname⟩, fs, false⟩
  else
    match creds with
    | none =>
      match env.resp url none with
      | .ok bytes => ⟨⟨true, fname⟩, writeFile fs target bytes.length, true⟩
      | .authRequired => ⟨⟨false, fname⟩, fs, true⟩
      | .netErr => ⟨⟨false, fname⟩, fs, true⟩
    | some c =>
      if env.authOk c then
        match env.resp url (some c) with
        | .ok bytes => ⟨⟨true, fname⟩, writeFile fs target bytes.length, true⟩
        | .authRequired => ⟨⟨false, fname⟩, fs, true⟩
        | .netErr => ⟨⟨false, fname⟩, fs, true⟩
      else ⟨⟨false, fname⟩, fs, true⟩

/-- The module-level state of `server.py`: the `NCCN_USERNAME` /
`NCCN_PASSWORD` environment values captured at module load, and the server
directory `current_dir`. -/
structure ModuleState where
  nccn_username : Option String
  nccn_password : Option String
  currentDir : String

/-- Python truthiness of an optional string (`None` and `""` are falsy). -/
def truthy : Option String → Bool
  | some s => s != ""
  | none => false

/-- Which downloader instance `download_pdf` uses: a fresh
`NCCNDownloader(user, pass)` or the shared module-level instance. -/
inductive DownloaderChoice where
  | fresh (c : Credentials)
  | globalShared
deriving DecidableEq, Repr

/-- The credentials `download_pdf` passes down: the module-load environment
values when both are truthy, anonymous otherwise (embedded from
`server.py`, `auth_username = NCCN_USERNAME` / `auth_password =
NCCN_PASSWORD` and the `if auth_username and auth_password` guard). -/
def moduleCreds (m : ModuleState) : Option Credentials :=
  if truthy m.nccn_username && truthy m.nccn_password then
    some ⟨m.nccn_username.getD "", m.nccn_password.getD ""⟩
  else none

/-- Embedded from `server.py`: which downloader instance the tool constructs
or reuses for a call. -/
def chooseDownloader (m : ModuleState) : DownloaderChoice :=
  match moduleCreds m with
  | some c => .fresh c
  | none => .globalShared

/-- Embedded from `server.py`: the success message of `download_pdf`. -/
def successMsg (path fname : String) : String :=
  "PDF downloaded successfully: " ++ path ++ " (filename: " ++ fname ++ ")"

/-- Embedded from `server.py`: the failure message of `download_pdf`. -/
def failMsg (url fname : String) : String :=
  "Failed to download PDF from " ++ url ++ " (attempted filename: " ++
    fname ++ ")."

/-- Embedded from `server.py`: the hint appended to the failure message when
no credentials are configured. -/
def credsHint : String :=
  " You may need to provide NCCN login credentials via environment variables (NCCN_USERNAME, NCCN_PASSWORD) or function parameters."

/-- The observable outcome of one `download_pdf` tool call. -/
structure ToolOutcome where
  choice : DownloaderChoice
  credsUsed : Option Credentials
  result : FetchResult
  message : String
  fs : FS
  network : Bool

/-- Embedded from `server.py`: the `download_pdf` tool.  The caller supplies
only `url`; credentials come from the module-load environment values, the
download directory is `current_dir/downloads`, and `skip_if_exists` is always
true. -/
def download_pdf_tool (m : ModuleState) (env : NetEnv) (fs : FS)
    (url : String) : ToolOutcome :=
  let downloadDir := m.currentDir ++ "/downloads"
  let creds := moduleCreds m
  let o := download env fs url downloadDir creds true
  let msg :=
    if o.result.success then
      successMsg (downloadDir ++ "/" ++ o.result.filename) o.result.filename
    else
      failMsg url o.result.filename ++
        (if truthy m.nccn_username && truthy m.nccn_password then ""
         else credsHint)
  ⟨chooseDownloader m, creds, o.result, msg, o.fs, o.network⟩

/-! ## The `extract_content` tool layer -/

/-- The environment of one `extract_content` call: the server directory, the
filesystem existence predicate, and the PDF reader (path and pages to
extracted text or a raised error message). -/
structure ExtractEnv where
  currentDir : String
  fileExists : String → Bool
  reader : String → Option String → Except String String

/-- Embedded from `server.py`: `os.path.isabs` on a POSIX path. -/
def isAbsolute (p : String) : Bool :=
  match p.toList with
  | '/' :: _ => true
  | _ => false

/-- The candidate path of `p` under the downloads directory. -/
def downloadsPath (env : ExtractEnv) (p : String) : String :=
  env.currentDir ++ "/downloads/" ++ p

/-- The candidate path of `p` under the server directory. -/
def currentPath (env : ExtractEnv) (p : String) : String :=
  env.currentDir ++ "/" ++ p

/-- Embedded from `server.py`: resolve the `pdf_path` argument — absolute
paths are used as-is (no existence check); relative paths are tried under the
downloads directory, then under the server directory; otherwise `none`. -/
def resolve_pdf_path (env : ExtractEnv) (p : String) : Option String :=
  if isAbsolute p then some p
  else if env.fileExists (downloadsPath env p) then some (downloadsPath env p)
  else if env.fileExists (currentPath env p) then some (currentPath env p)
  else none

/-- Embedded from `server.py`: Python's `pages or 'all'`. -/
def pagesLabel : Option String → String
  | none => "all"
  | some s => if s = "" then "all" else s

/-- Embedded from `server.py`: the message returned when no content was
extracted. -/
def noContentMsg (rp : String) (pages : Option String) : String :=
  "No content extracted from " ++ rp ++ " (pages: " ++ pagesLabel pages ++ ")"

/-- The observable outcome of one `extract_content` tool call, with a ghost
flag recording whether the PDF reader was invoked. -/
structure ExtractOutcome where
  output : String
  invokedReader : Bool

/-- Embedded from `server.py`: the `extract_content` tool — resolve the path
(returning a not-found message without touching the reader when resolution
fails), call the reader converting a raised error into an error message, and
return the no-content message when the content is empty after `strip()`
(modelled as all-whitespace). -/
def extract_content_tool (env : ExtractEnv) (p : String)
    (pages : Option String) : ExtractOutcome :=
  match resolve_pdf_path env p with
  | none => ⟨"PDF file not found: " ++ p, false⟩
  | some rp =>
    match env.reader rp pages with
    | .error e => ⟨"Error extracting content from PDF: " ++ e, true⟩
    | .ok content =>
      if content.toList.all Char.isWhitespace then ⟨noContentMsg rp pages, true⟩
      else ⟨content, true⟩

/-- Modelled from the spec: the missing `read_pdf.PDFReader` as seen by the
tool layer, over a map from file path to the document's page texts — a
missing file raises a file error, a selector error raises its message, and
otherwise the extracted text is returned. -/
def pdfReaderModel (docs : String → Option (List String)) :
    String → Option String → Except String String :=
  fun path pages =>
    match docs path with
    | none => .error ("Cannot open file: " ++ path)
    | some doc =>
      match extract doc pages with
      | .ok s => .ok s
      | .error e => .error ("Invalid page selector: " ++ e.token)

/-! ## CatalogCache (spec-modelled) -/

/-- A catalog entry: a guideline title and its URL. -/
structure CatalogEntry where
  title : String
  url : String
deriving DecidableEq, Repr

/-- A catalog category: its name and its entries. -/
structure CatalogCategory where
  name : String
  entries : List CatalogEntry
deriving DecidableEq, Repr

/-- The structured catalog index. -/
structure Catalog where
  categories : List CatalogCategory
deriving DecidableEq, Repr

/-- A YAML-like structured document: the persisted form of the catalog and
the shape of the remote catalog source. -/
inductive Yaml where
  | str : String → Yaml
  | seq : List Yaml → Yaml
  | map : List (String × Yaml) → Yaml

/-- Look a key up in a YAML mapping. -/
def lookupY : List (String × Yaml) → String → Option Yaml
  | [], _ => none
  | (k, v) :: rest, key => if k = key then some v else lookupY rest key

/-- Project a YAML value to a string. -/
def asStr : Option Yaml → Option String
  | some (.str s) => some s
  | _ => none

/-- Modelled from the spec: parse one catalog entry; entries missing a
required field, or with an empty URL, are dropped (`nccn_get_index` is not in
the source tree). -/
def parseEntry : Yaml → Option CatalogEntry
  | .map kvs =>
    match asStr (lookupY kvs "title"), asStr (lookupY kvs "url") with
    | some t, some u => if u = "" then none else some ⟨t, u⟩
    | _, _ => none
  | _ => none

/-- Modelled from the spec: parse one category, dropping unparseable
entries rather than aborting. -/
def parseCategory : Yaml → Option CatalogCategory
  | .map kvs =>
    match asStr (lookupY kvs "category"), lookupY kvs "guidelines" with
    | some n, some (.seq gs) => some ⟨n, gs.filterMap parseEntry⟩
    | _, _ => none
  | _ => none

/-- Modelled from the spec: parse a whole catalog document (the
`nccn_guidelines` key holding a sequence of categories), dropping bad
categories rather than aborting. -/
def parseCatalog : Yaml → Option Catalog
  | .map kvs =>
    match lookupY kvs "nccn_guidelines" with
    | some (.seq cats) => some ⟨cats.filterMap parseCategory⟩
    | _ => none
  | _ => none

/-- Encode one entry for persistence. -/
def encodeEntry (e : CatalogEntry) : Yaml :=
  .map [("title", .str e.title), ("url", .str e.url)]

/-- Encode one category for persistence. -/
def encodeCategory (cat : CatalogCategory) : Yaml :=
  .map [("category", .str cat.name),
        ("guidelines", .seq (cat.entries.map encodeEntry))]

/-- Encode a catalog for persistence. -/
def encodeCatalog (c : Catalog) : Yaml :=
  .map [("nccn_guidelines", .seq (c.categories.map encodeCategory))]

/-- The spec's catalog validity invariant: every entry has a non-empty URL. -/
def validCatalog (c : Catalog) : Prop :=
  ∀ cat ∈ c.categories, ∀ e ∈ cat.entries, e.url ≠ ""

/-- The failure of `ensure` when no catalog is obtainable at all. -/
inductive CacheError where
  | unavailable
deriving DecidableEq, Repr

/-- The environment of one `ensure` call: the clock, the persisted file (its
mtime and content) and what a remote fetch would deliver (`none` = failure). -/
structure CacheEnv where
  now : Nat
  file : Option (Nat × Yaml)
  remote : Option Yaml

/-- The observable outcome of one `ensure` call. -/
structure EnsureOutcome where
  result : Except CacheError Catalog
  file : Option (Nat × Yaml)
  network : Bool

/-- Modelled from the spec: `CatalogCache.ensure(output_path, max_age)` of
the missing `nccn_get_index.ensure_nccn_index`.  A fresh parsed persisted
copy is returned with no network access; otherwise the remote catalog is
fetched, parsed, persisted and returned; on fetch failure a stale persisted
copy is returned as designed degradation, and with no usable copy at all the
result is `CacheError.unavailable`. -/
def ensure (env : CacheEnv) (maxAge : Nat) : EnsureOutcome :=
  let cached : Option Catalog :=
    match env.file with
    | some (t, y) => if env.now - t ≤ maxAge then parseCatalog y else none
    | none => none
  match cached with
  | some c => ⟨.ok c, env.file, false⟩
  | none =>
    match env.remote.bind parseCatalog with
    | some c => ⟨.ok c, some (env.now, encodeCatalog c), true⟩
    | none =>
      match env.file with
      | some (_, y) =>
        match parseCatalog y with
        | some c => ⟨.ok c, env.file, true⟩
        | none => ⟨.error .unavailable, env.file, true⟩
      | none => ⟨.error .unavailable, env.file, true⟩

/-! ## C1: idempotent skip-if-exists download -/

/-- C1 (amended): whenever the target file exists and is non-empty after the
first `download(u, dir, …, skip_if_exists=true)` call — in particular when
the file was already present or the first call fetched a non-empty body — the
second consecutive call performs no network I/O and returns success
referencing the already-present file, so the two calls perform network I/O
at most once. -/
theorem download_skip_idempotent (env : NetEnv) (fs : FS) (url dir : String)
    (creds : Option Credentials)
    (h : existsNonEmpty (download env fs url dir creds true).fs
      (dir ++ "/" ++ filenameOf url) = true) :
    (download env (download env fs url dir creds true).fs url dir creds
        true).network = false ∧
    (download env (download env fs url dir creds true).fs url dir creds
        true).result.success = true ∧
    (download env (download env fs url dir creds true).fs url dir creds
        true).result.filename = filenameOf url ∧
    (download env (download env fs url dir creds true).fs url dir creds
        true).fs = (download env fs url dir creds true).fs := by
  refine ⟨?_, ?_, ?_, ?_⟩ <;>
    · conv_lhs => rw [download.eq_def]
      simp only [h, Bool.and_self, if_true]

/-- C1 counterexample: with a remote that fails the fetch, both consecutive
`download(…, skip_if_exists=true)` calls touch the network — the pair
performs network I/O twice, not at most once, and the second call does not
return success. -/
theorem download_skip_counterexample :
    (download ⟨fun _ _ => .netErr, fun _ => false⟩ (fun _ => none)
      "https://site/doc.pdf" "downloads" none true).network = true ∧
    (download ⟨fun _ _ => .netErr, fun _ => false⟩
      (download ⟨fun _ _ => .netErr, fun _ => false⟩ (fun _ => none)
        "https://site/doc.pdf" "downloads" none true).fs
      "https://site/doc.pdf" "downloads" none true).network = true ∧
    (download ⟨fun _ _ => .netErr, fun _ => false⟩
      (download ⟨fun _ _ => .netErr, fun _ => false⟩ (fun _ => none)
        "https://site/doc.pdf" "downloads" none true).fs
      "https://site/doc.pdf" "downloads" none true).result.success = false := by
  refine ⟨rfl, rfl, rfl⟩

theorem download_skip_idempotent_witness :
    existsNonEmpty
      (download ⟨fun _ _ => .netErr, fun _ => false⟩
        (fun p => if p = "downloads/doc.pdf" then some 3 else none)
        "https://site/doc.pdf" "downloads" none true).fs
      ("downloads" ++ "/" ++ filenameOf "https://site/doc.pdf") = true ∧
    (download ⟨fun _ _ => .netErr, fun _ => false⟩
      (download ⟨fun _ _ => .netErr, fun _ => false⟩
        (fun p => if p = "downloads/doc.pdf" then some 3 else none)
        "https://site/doc.pdf" "downloads" none true).fs
      "https://site/doc.pdf" "downloads" none true).network = false ∧
    (download ⟨fun _ _ => .netErr, fun _ => false⟩
      (download ⟨fun _ _ => .netErr, fun _ => false⟩
        (fun p => if p = "downloads/doc.pdf" then some 3 else none)
        "https://site/doc.pdf" "downloads" none true).fs
      "https://site/doc.pdf" "downloads" none true).result.success = true :=
  ⟨by decide,
    (download_skip_idempotent ⟨fun _ _ => .netErr, fun _ => false⟩
      (fun p => if p = "downloads/doc.pdf" then some 3 else none)
      "https://site/doc.pdf" "downloads" none (by decide)).1,
    (download_skip_idempotent ⟨fun _ _ => .netErr, fun _ => false⟩
      (fun p => if p = "downloads/doc.pdf" then some 3 else none)
      "https://site/doc.pdf" "downloads" none (by decide)).2.1⟩

/-! ## C10 and C4: credential selection and the auth-required failure -/

theorem truthy_false_of_moduleCreds_none {m : ModuleState}
    (h : moduleCreds m = none) :
    (truthy m.nccn_username && truthy m.nccn_password) = false := by
  unfold moduleCreds at h
  cases hb : (truthy m.nccn_username && truthy m.nccn_password) with
  | false => rfl
  | true => rw [hb] at h; simp at h

/-- C10: every `download_pdf` call uses exactly the `NCCN_USERNAME` /
`NCCN_PASSWORD` environment values captured at module load — the tool takes
only a `url` argument, so per-call credentials cannot be supplied; when both
values are truthy, a fresh downloader is constructed with them, and otherwise
every call (whatever its URL) reuses the single shared module-level
downloader instance. -/
theorem download_pdf_tool_credentials (m : ModuleState) (env : NetEnv)
    (fs : FS) (url url₂ : String) :
    (download_pdf_tool m env fs url).credsUsed = moduleCreds m ∧
    (∀ c, moduleCreds m = some c →
      (download_pdf_tool m env fs url).choice = .fresh c) ∧
    (moduleCreds m = none →
      (download_pdf_tool m env fs url).choice = .globalShared) ∧
    (moduleCreds m).isSome =
      (truthy m.nccn_username && truthy m.nccn_password) ∧
    (download_pdf_tool m env fs url₂).choice =
      (download_pdf_tool m env fs url).choice := by
  refine ⟨rfl, ?_, ?_, ?_, rfl⟩
  · intro c hc
    show chooseDownloader m = _
    unfold chooseDownloader
    rw [hc]
  · intro hc
    show chooseDownloader m = _
    unfold chooseDownloader
    rw [hc]
  · unfold moduleCreds
    cases hb : (truthy m.nccn_username && truthy m.nccn_password) <;> simp [hb]

theorem download_pdf_tool_credentials_witness :
    (download_pdf_tool ⟨some "u@x", some "pw", "/srv"⟩
      ⟨fun _ _ => .netErr, fun _ => true⟩ (fun _ => none)
      "https://site/doc.pdf").choice = .fresh ⟨"u@x", "pw"⟩ :=
  (download_pdf_tool_credentials ⟨some "u@x", some "pw", "/srv"⟩
    ⟨fun _ _ => .netErr, fun _ => true⟩ (fun _ => none)
    "https://site/doc.pdf" "https://site/other.pdf").2.1
    ⟨"u@x", "pw"⟩ (by decide)

/-- C4: when the resource rejects the request as authentication-required and
no credentials were configured, `download_pdf` surfaces `success=false` with
the attempted target filename, and its caller-visible message carries the
"credentials" guidance appended by `server.py`. -/
theorem download_pdf_tool_auth_required (m : ModuleState) (env : NetEnv)
    (fs : FS) (url : String)
    (hcreds : moduleCreds m = none)
    (hresp : env.resp url none = .authRequired)
    (hskip : existsNonEmpty fs
      (m.currentDir ++ "/downloads" ++ "/" ++ filenameOf url) = false) :
    (download_pdf_tool m env fs url).result.success = false ∧
    (download_pdf_tool m env fs url).result.filename = filenameOf url ∧
    (download_pdf_tool m env fs url).message =
      failMsg url (filenameOf url) ++ credsHint ∧
    ("credentials".toList).IsInfix
      (download_pdf_tool m env fs url).message.toList := by
  have hdl : download env fs url (m.currentDir ++ "/downloads")
      (moduleCreds m) true = ⟨⟨false, filenameOf url⟩, fs, true⟩ := by
    rw [download.eq_def]
    simp only [hcreds, hskip, Bool.true_and, Bool.false_eq_true, if_false,
      hresp]
  have htool : download_pdf_tool m env fs url =
      ⟨chooseDownloader m, moduleCreds m, ⟨false, filenameOf url⟩,
        failMsg url (filenameOf url) ++ credsHint, fs, true⟩ := by
    simp only [download_pdf_tool]
    rw [hdl]
    simp only [truthy_false_of_moduleCreds_none hcreds, Bool.false_eq_true,
      if_false]
  rw [htool]
  refine ⟨rfl, rfl, rfl, ?_⟩
  have hsplit : credsHint =
      " You may need to provide NCCN login " ++ "credentials" ++
        " via environment variables (NCCN_USERNAME, NCCN_PASSWORD) or function parameters." := by
    rfl
  refine ⟨(failMsg url (filenameOf url)).toList ++
    " You may need to provide NCCN login ".toList,
    " via environment variables (NCCN_USERNAME, NCCN_PASSWORD) or function parameters.".toList, ?_⟩
  show _ = (failMsg url (filenameOf url) ++ credsHint).toList
  rw [hsplit]
  simp only [String.toList, String.data_append, List.append_assoc]

theorem download_pdf_tool_auth_required_witness :
    moduleCreds ⟨none, none, "/srv"⟩ = none ∧
    (download_pdf_tool ⟨none, none, "/srv"⟩
      ⟨fun _ _ => .authRequired, fun _ => false⟩ (fun _ => none)
      "https://site/doc.pdf").result.success = false ∧
    (download_pdf_tool ⟨none, none, "/srv"⟩
      ⟨fun _ _ => .authRequired, fun _ => false⟩ (fun _ => none)
      "https://site/doc.pdf").result.filename =
        filenameOf "https://site/doc.pdf" ∧
    ("credentials".toList).IsInfix
      (download_pdf_tool ⟨none, none, "/srv"⟩
        ⟨fun _ _ => .authRequired, fun _ => false⟩ (fun _ => none)
        "https://site/doc.pdf").message.toList :=
  ⟨by decide,
    (download_pdf_tool_auth_required ⟨none, none, "/srv"⟩
      ⟨fun _ _ => .authRequired, fun _ => false⟩ (fun _ => none)
      "https://site/doc.pdf" (by decide) rfl (by decide)).1,
    (download_pdf_tool_auth_required ⟨none, none, "/srv"⟩
      ⟨fun _ _ => .authRequired, fun _ => false⟩ (fun _ => none)
      "https://site/doc.pdf" (by decide) rfl (by decide)).2.1,
    (download_pdf_tool_auth_required ⟨none, none, "/srv"⟩
      ⟨fun _ _ => .authRequired, fun _ => false⟩ (fun _ => none)
      "https://site/doc.pdf" (by decide) rfl (by decide)).2.2.2⟩

/-! ## C5: faults are converted into values -/

theorem filenameOf_ne_empty (url : String) : filenameOf url ≠ "" := by
  simp only [filenameOf]
  by_cases h : ((splitOnChar '/' url.toList).getLast?).getD [] = ([] : List Char)
  · rw [if_pos h]
    decide
  · rw [if_neg h]
    intro hc
    exact h (congrArg String.data hc)

theorem download_result_filename (env : NetEnv) (fs : FS) (url dir : String)
    (creds : Option Credentials) (skip : Bool) :
    (download env fs url dir creds skip).result.filename = filenameOf url := by
  simp only [download.eq_def]
  repeat' split
  all_goals rfl

/-- C5: every core operation converts internal faults into error values
returned to the caller rather than aborting — `download` always returns a
`FetchResult` naming the (never empty) attempted target, a failing
unauthenticated fetch yields `success=false` leaving the filesystem
untouched, a raised reader error becomes the `extract_content` error
message, and `ensure` with no usable catalog returns
`CacheError.unavailable` as a value. -/
theorem core_faults_are_values :
    (∀ (env : NetEnv) (fs : FS) (url dir : String) (creds : Option Credentials)
        (skip : Bool),
      (download env fs url dir creds skip).result.filename = filenameOf url ∧
      filenameOf url ≠ "") ∧
    (∀ (env : NetEnv) (fs : FS) (url dir : String),
      existsNonEmpty fs (dir ++ "/" ++ filenameOf url) = false →
      env.resp url none = .netErr →
      (download env fs url dir none true).result.success = false ∧
      (download env fs url dir none true).fs = fs) ∧
    (∀ (envx : ExtractEnv) (p : String) (pg : Option String) (rp e : String),
      resolve_pdf_path envx p = some rp →
      envx.reader rp pg = .error e →
      (extract_content_tool envx p pg).output =
        "Error extracting content from PDF: " ++ e) ∧
    (∀ (cenv : CacheEnv) (maxAge : Nat),
      cenv.file = none → cenv.remote = none →
      (ensure cenv maxAge).result = .error .unavailable) := by
  refine ⟨?_, ?_, ?_, ?_⟩
  · intro env fs url dir creds skip
    exact ⟨download_result_filename env fs url dir creds skip,
      filenameOf_ne_empty url⟩
  · intro env fs url dir hskip hresp
    have hdl : download env fs url dir none true =
        ⟨⟨false, filenameOf url⟩, fs, true⟩ := by
      rw [download.eq_def]
      simp only [hskip, Bool.true_and, Bool.false_eq_true, if_false, hresp]
    rw [hdl]
    exact ⟨rfl, rfl⟩
  · intro envx p pg rp e hres hread
    simp only [extract_content_tool, hres, hread]
  · intro cenv maxAge hfile hremote
    rw [ensure.eq_def]
    simp only [hfile, hremote, Option.bind]

theorem core_faults_are_values_witness :
    (download ⟨fun _ _ => .netErr, fun _ => false⟩ (fun _ => none)
      "https://site/doc.pdf" "downloads" none true).result.filename =
        filenameOf "https://site/doc.pdf" ∧
    (download ⟨fun _ _ => .netErr, fun _ => false⟩ (fun _ => none)
      "https://site/doc.pdf" "downloads" none true).result.success = false ∧
    (ensure ⟨0, none, none⟩ 7).result = .error .unavailable :=
  ⟨(core_faults_are_values.1 ⟨fun _ _ => .netErr, fun _ => false⟩
      (fun _ => none) "https://site/doc.pdf" "downloads" none true).1,
    (core_faults_are_values.2.1 ⟨fun _ _ => .netErr, fun _ => false⟩
      (fun _ => none) "https://site/doc.pdf" "downloads" (by decide) rfl).1,
    core_faults_are_values.2.2.2 ⟨0, none, none⟩ 7 rfl rfl⟩

/-! ## C8: empty extracted content is a non-error outcome -/

theorem map_empty_eq_replicate {l : List Nat} {f : Nat → String}
    (h : ∀ i ∈ l, f i = "") : l.map f = List.replicate l.length "" := by
  induction l with
  | nil => rfl
  | cons x xs ih =>
    simp only [List.map_cons, List.length_cons, List.replicate_succ]
    rw [h x (by simp), ih (fun i hi => h i (by simp [hi]))]

theorem joinSep_replicate_empty_whitespace (k : Nat) :
    ((joinSep (List.replicate k "")).toList.all Char.isWhitespace) = true := by
  induction k with
  | zero => rfl
  | succ k ih =>
    cases k with
    | zero => rfl
    | succ k2 =>
      have hstep : joinSep (List.replicate (k2 + 1 + 1) "") =
          "" ++ pageSeparator ++ joinSep (List.replicate (k2 + 1) "") := by
        rw [List.replicate_succ, List.replicate_succ]
        rfl
      rw [hstep]
      simp only [String.toList] at ih ⊢
      simp only [String.data_append, List.all_append, ih, Bool.and_true]
      decide

theorem extract_all_empty {doc : List String} {sel : Option String}
    {l : List Nat} (hp : parse_selector (sel.getD "") doc.length = .ok l)
    (he : ∀ i ∈ l, pageText doc i = "") :
    extract doc sel = .ok (joinSep (List.replicate l.length "")) := by
  unfold extract
  rw [hp]
  simp only [Except.map]
  rw [map_empty_eq_replicate he]

/-- C8: when every selected page yields no extractable text, extraction
reports an empty-content outcome rather than failing — each empty page
contributes an empty segment, the joined result is whitespace-only, and the
`extract_content` tool returns the "No content extracted" message (a normal
return value, not an error). -/
theorem extract_empty_content_outcome :
    (∀ (doc : List String) (sel : Option String) (l : List Nat),
      parse_selector (sel.getD "") doc.length = .ok l →
      (∀ i ∈ l, pageText doc i = "") →
      extract doc sel = .ok (joinSep (List.replicate l.length "")) ∧
      ((joinSep (List.replicate l.length "")).toList.all Char.isWhitespace)
        = true) ∧
    (∀ (docs : String → Option (List String)) (cd : String)
        (fex : String → Bool) (p : String) (pg : Option String) (rp : String)
        (doc : List String) (l : List Nat),
      resolve_pdf_path ⟨cd, fex, pdfReaderModel docs⟩ p = some rp →
      docs rp = some doc →
      parse_selector (pg.getD "") doc.length = .ok l →
      (∀ i ∈ l, pageText doc i = "") →
      (extract_content_tool ⟨cd, fex, pdfReaderModel docs⟩ p pg).output =
        noContentMsg rp pg) := by
  refine ⟨?_, ?_⟩
  · intro doc sel l hp he
    exact ⟨extract_all_empty hp he, joinSep_replicate_empty_whitespace _⟩
  · intro docs cd fex p pg rp doc l hres hdocs hp he
    have hx : extract doc pg = .ok (joinSep (List.replicate l.length "")) :=
      extract_all_empty hp he
    simp only [extract_content_tool, hres, pdfReaderModel, hdocs, hx,
      joinSep_replicate_empty_whitespace, if_true]

theorem extract_empty_content_outcome_witness :
    parse_selector "1,2" (["", ""] : List String).length = .ok [1, 2] ∧
    (∀ i ∈ [1, 2], pageText ["", ""] i = "") ∧
    resolve_pdf_path
      ⟨"/srv", fun q => q == "/srv/downloads/d.pdf",
        pdfReaderModel (fun q =>
          if q = "/srv/downloads/d.pdf" then some ["", ""] else none)⟩
      "d.pdf" = some "/srv/downloads/d.pdf" ∧
    (extract_content_tool
      ⟨"/srv", fun q => q == "/srv/downloads/d.pdf",
        pdfReaderModel (fun q =>
          if q = "/srv/downloads/d.pdf" then some ["", ""] else none)⟩
      "d.pdf" (some "1,2")).output =
        noContentMsg "/srv/downloads/d.pdf" (some "1,2") :=
  ⟨by decide, by decide, by decide,
    extract_empty_content_outcome.2
      (fun q => if q = "/srv/downloads/d.pdf" then some ["", ""] else none)
      "/srv" (fun q => q == "/srv/downloads/d.pdf") "d.pdf" (some "1,2")
      "/srv/downloads/d.pdf" ["", ""] [1, 2]
      (by decide) (by decide) (by decide) (by decide)⟩

/-! ## C9: path resolution in the extract_content tool -/

/-- C9 (amended): the tool resolves the path before delegating — an absolute
path is used as-is and handed to the extractor without an existence check; a
relative path is resolved against the downloads directory first and the
server directory second; only when neither resolution names an existing file
does the tool return the file-not-found outcome, without invoking the
extractor. -/
theorem extract_path_resolution (env : ExtractEnv) (p : String)
    (pg : Option String) :
    (isAbsolute p = true → resolve_pdf_path env p = some p ∧
      (extract_content_tool env p pg).invokedReader = true) ∧
    (isAbsolute p = false → env.fileExists (downloadsPath env p) = true →
      resolve_pdf_path env p = some (downloadsPath env p)) ∧
    (isAbsolute p = false → env.fileExists (downloadsPath env p) = false →
      env.fileExists (currentPath env p) = true →
      resolve_pdf_path env p = some (currentPath env p)) ∧
    (isAbsolute p = false → env.fileExists (downloadsPath env p) = false →
      env.fileExists (currentPath env p) = false →
      (extract_content_tool env p pg).output = "PDF file not found: " ++ p ∧
      (extract_content_tool env p pg).invokedReader = false) := by
  refine ⟨?_, ?_, ?_, ?_⟩
  · intro habs
    have hres : resolve_pdf_path env p = some p := by
      simp only [resolve_pdf_path, habs, if_true]
    refine ⟨hres, ?_⟩
    cases hr : env.reader p pg with
    | error e => simp only [extract_content_tool, hres, hr]
    | ok content =>
      by_cases hw : (content.toList.all Char.isWhitespace) = true
      · simp only [extract_content_tool, hres, hr, hw, if_true]
      · simp only [extract_content_tool, hres, hr, hw, Bool.false_eq_true, if_false]
  · intro habs hdl
    simp only [resolve_pdf_path, habs, Bool.false_eq_true, if_false, hdl,
      if_true]
  · intro habs hdl hcur
    simp only [resolve_pdf_path, habs, Bool.false_eq_true, if_false, hdl,
      hcur, if_true]
  · intro habs hdl hcur
    have hres : resolve_pdf_path env p = none := by
      simp only [resolve_pdf_path, habs, Bool.false_eq_true, if_false, hdl,
        hcur]
    constructor <;>
      · unfold extract_content_tool
        rw [hres]

/-- C9 counterexample: an absolute path that names no existing file is still
handed to the extractor — the tool returns the extractor's error message, not
the file-not-found outcome, contradicting the claim that no resolution
yielding an existing file returns file-not-found without invoking the
extractor. -/
theorem extract_path_resolution_counterexample :
    (extract_content_tool
      ⟨"/srv/app", fun _ => false, fun q _ => .error ("no such file: " ++ q)⟩
      "/missing.pdf" none).invokedReader = true ∧
    (extract_content_tool
      ⟨"/srv/app", fun _ => false, fun q _ => .error ("no such file: " ++ q)⟩
      "/missing.pdf" none).output =
        "Error extracting content from PDF: no such file: /missing.pdf" ∧
    (extract_content_tool
      ⟨"/srv/app", fun _ => false, fun q _ => .error ("no such file: " ++ q)⟩
      "/missing.pdf" none).output ≠ "PDF file not found: /missing.pdf" := by
  refine ⟨rfl, rfl, by decide⟩

theorem extract_path_resolution_witness :
    isAbsolute "rel.pdf" = false ∧
    (⟨"/srv", fun _ => false, fun _ _ => .ok "text"⟩ :
      ExtractEnv).fileExists
        (downloadsPath ⟨"/srv", fun _ => false, fun _ _ => .ok "text"⟩
          "rel.pdf") = false ∧
    (⟨"/srv", fun _ => false, fun _ _ => .ok "text"⟩ :
      ExtractEnv).fileExists
        (currentPath ⟨"/srv", fun _ => false, fun _ _ => .ok "text"⟩
          "rel.pdf") = false ∧
    ((extract_content_tool ⟨"/srv", fun _ => false, fun _ _ => .ok "text"⟩
        "rel.pdf" none).output = "PDF file not found: " ++ "rel.pdf" ∧
      (extract_content_tool ⟨"/srv", fun _ => false, fun _ _ => .ok "text"⟩
        "rel.pdf" none).invokedReader = false) :=
  ⟨by decide, by decide, by decide,
    (extract_path_resolution ⟨"/srv", fun _ => false, fun _ _ => .ok "text"⟩
      "rel.pdf" none).2.2.2 (by decide) (by decide) (by decide)⟩

/-! ## Catalog encode/parse round-trip -/

theorem parseEntry_encodeEntry (e : CatalogEntry) (h : e.url ≠ "") :
    parseEntry (encodeEntry e) = some e := by
  simp [parseEntry, encodeEntry, lookupY, asStr, h]

theorem entries_roundtrip (l : List CatalogEntry)
    (h : ∀ e ∈ l, e.url ≠ "") :
    (l.map encodeEntry).filterMap parseEntry = l := by
  induction l with
  | nil => rfl
  | cons e es ih =>
    simp only [List.map_cons, List.filterMap_cons,
      parseEntry_encodeEntry e (h e (by simp))]
    rw [ih (fun x hx => h x (by simp [hx]))]

theorem parseCategory_encodeCategory (cat : CatalogCategory)
    (h : ∀ e ∈ cat.entries, e.url ≠ "") :
    parseCategory (encodeCategory cat) = some cat := by
  have hent := entries_roundtrip cat.entries h
  simp [parseCategory, encodeCategory, lookupY, asStr, hent]

theorem categories_roundtrip (l : List CatalogCategory)
    (h : ∀ cat ∈ l, ∀ e ∈ cat.entries, e.url ≠ "") :
    (l.map encodeCategory).filterMap parseCategory = l := by
  induction l with
  | nil => rfl
  | cons cat cats ih =>
    simp only [List.map_cons, List.filterMap_cons,
      parseCategory_encodeCategory cat (h cat (by simp))]
    rw [ih (fun x hx => h x (by simp [hx]))]

theorem parseCatalog_encodeCatalog (c : Catalog) (h : validCatalog c) :
    parseCatalog (encodeCatalog c) = some c := by
  have hcat := categories_roundtrip c.categories h
  simp [parseCatalog, encodeCatalog, lookupY, hcat]

theorem parseEntry_valid {y : Yaml} {e : CatalogEntry}
    (h : parseEntry y = some e) : e.url ≠ "" := by
  cases y with
  | str s => simp [parseEntry] at h
  | seq xs => simp [parseEntry] at h
  | map kvs =>
    simp only [parseEntry] at h
    cases ht : asStr (lookupY kvs "title") with
    | none => rw [ht] at h; cases h
    | some t =>
      cases hu : asStr (lookupY kvs "url") with
      | none => rw [ht, hu] at h; cases h
      | some u =>
        rw [ht, hu] at h
        by_cases hue : u = ""
        · simp [hue] at h
        · simp [hue] at h
          rw [← h]
          exact hue

theorem parseCategory_valid {y : Yaml} {cat : CatalogCategory}
    (h : parseCategory y = some cat) : ∀ e ∈ cat.entries, e.url ≠ "" := by
  cases y with
  | str s => simp [parseCategory] at h
  | seq xs => simp [parseCategory] at h
  | map kvs =>
    simp only [parseCategory] at h
    cases hn : asStr (lookupY kvs "category") with
    | none => rw [hn] at h; cases h
    | some n =>
      cases hg : lookupY kvs "guidelines" with
      | none => rw [hn, hg] at h; cases h
      | some g =>
        cases g with
        | str s => rw [hn, hg] at h; cases h
        | map kvs2 => rw [hn, hg] at h; cases h
        | seq gs =>
          rw [hn, hg] at h
          cases h
          intro e he
          obtain ⟨a, _, ha⟩ := List.mem_filterMap.mp he
          exact parseEntry_valid ha

theorem parseCatalog_valid {y : Yaml} {c : Catalog}
    (h : parseCatalog y = some c) : validCatalog c := by
  cases y with
  | str s => simp [parseCatalog] at h
  | seq xs => simp [parseCatalog] at h
  | map kvs =>
    simp only [parseCatalog] at h
    cases hg : lookupY kvs "nccn_guidelines" with
    | none => rw [hg] at h; cases h
    | some g =>
      cases g with
      | str s => rw [hg] at h; cases h
      | map kvs2 => rw [hg] at h; cases h
      | seq cats =>
        rw [hg] at h
        cases h
        intro cat hcat
        obtain ⟨a, _, ha⟩ := List.mem_filterMap.mp hcat
        exact parseCategory_valid ha

/-! ## C6 and C7: catalog cache freshness, round-trip, and fallback -/

/-- C6: a fresh persisted catalog is parsed and returned with no network
access, and the persist-then-reload round-trip is the identity — after a
fetch persists the parsed catalog, a second `ensure` within `max_age`
returns an equal catalog without touching the network. -/
theorem ensure_fresh_cache_roundtrip :
    (∀ (env : CacheEnv) (maxAge t : Nat) (y : Yaml) (c : Catalog),
      env.file = some (t, y) → env.now - t ≤ maxAge →
      parseCatalog y = some c →
      (ensure env maxAge).result = .ok c ∧
      (ensure env maxAge).network = false ∧
      (ensure env maxAge).file = env.file) ∧
    (∀ (env : CacheEnv) (maxAge : Nat) (y : Yaml) (c : Catalog)
        (n₂ : Nat) (remote₂ : Option Yaml),
      env.file = none → env.remote = some y → parseCatalog y = some c →
      n₂ - env.now ≤ maxAge →
      (ensure env maxAge).result = .ok c ∧
      (ensure env maxAge).network = true ∧
      (ensure ⟨n₂, (ensure env maxAge).file, remote₂⟩ maxAge).result =
        .ok c ∧
      (ensure ⟨n₂, (ensure env maxAge).file, remote₂⟩ maxAge).network =
        false) := by
  constructor
  · intro env maxAge t y c hf hfresh hp
    have hens : ensure env maxAge = ⟨.ok c, env.file, false⟩ := by
      rw [ensure.eq_def]
      simp only [hf, hfresh, if_true, hp]
    rw [hens]
    exact ⟨rfl, rfl, rfl⟩
  · intro env maxAge y c n₂ remote₂ hf hr hp hage
    have hens : ensure env maxAge =
        ⟨.ok c, some (env.now, encodeCatalog c), true⟩ := by
      rw [ensure.eq_def]
      simp only [hf, hr, Option.bind, hp]
    have hround : parseCatalog (encodeCatalog c) = some c :=
      parseCatalog_encodeCatalog c (parseCatalog_valid hp)
    have hens2 : ensure ⟨n₂, (ensure env maxAge).file, remote₂⟩ maxAge =
        ⟨.ok c, (ensure env maxAge).file, false⟩ := by
      rw [hens]
      rw [ensure.eq_def]
      simp only [hage, if_true, hround]
    refine ⟨?_, ?_, ?_, ?_⟩
    · rw [hens]
    · rw [hens]
    · rw [hens2]
    · rw [hens2]

/-- C7: when the persisted copy is stale and the remote fetch fails, `ensure`
returns the stale parsed copy as a designed degradation; when no persisted
copy exists and the fetch fails, it returns `CacheError.unavailable`. -/
theorem ensure_stale_fallback :
    (∀ (env : CacheEnv) (maxAge t : Nat) (y : Yaml) (c : Catalog),
      env.file = some (t, y) → maxAge < env.now - t → env.remote = none →
      parseCatalog y = some c →
      (ensure env maxAge).result = .ok c ∧
      (ensure env maxAge).network = true) ∧
    (∀ (env : CacheEnv) (maxAge : Nat),
      env.file = none → env.remote = none →
      (ensure env maxAge).result = .error .unavailable ∧
      (ensure env maxAge).network = true) := by
  constructor
  · intro env maxAge t y c hf hstale hr hp
    have hens : ensure env maxAge = ⟨.ok c, env.file, true⟩ := by
      rw [ensure.eq_def]
      simp only [hf, Nat.not_le.mpr hstale, if_false, hr, Option.bind, hp]
    rw [hens]
    exact ⟨rfl, rfl⟩
  · intro env maxAge hf hr
    have hens : ensure env maxAge = ⟨.error .unavailable, env.file, true⟩ := by
      rw [ensure.eq_def]
      simp only [hf, hr, Option.bind]
    rw [hens]
    exact ⟨rfl, rfl⟩

/-- A concrete persisted-catalog document used to exercise the cache
theorems. -/
def yamlSample : Yaml :=
  .map [("nccn_guidelines", .seq [.map
    [("category", .str "Breast Cancer"),
     ("guidelines", .seq [.map
       [("title", .str "Invasive Breast Cancer"),
        ("url", .str "https://www.nccn.org/b.pdf")]])]])]

/-- The catalog value `yamlSample` parses to. -/
def catalogSample : Catalog :=
  ⟨[⟨"Breast Cancer",
     [⟨"Invasive Breast Cancer", "https://www.nccn.org/b.pdf"⟩]⟩]⟩

theorem ensure_fresh_cache_roundtrip_witness :
    parseCatalog yamlSample = some catalogSample ∧
    ((105 : Nat) - 100 ≤ 7) ∧
    (ensure ⟨100, none, some yamlSample⟩ 7).result = .ok catalogSample ∧
    (ensure ⟨100, none, some yamlSample⟩ 7).network = true ∧
    (ensure ⟨105, (ensure ⟨100, none, some yamlSample⟩ 7).file, none⟩
      7).result = .ok catalogSample ∧
    (ensure ⟨105, (ensure ⟨100, none, some yamlSample⟩ 7).file, none⟩
      7).network = false :=
  ⟨by decide, by decide,
    (ensure_fresh_cache_roundtrip.2 ⟨100, none, some yamlSample⟩ 7
      yamlSample catalogSample 105 none rfl rfl (by decide) (by decide)).1,
    (ensure_fresh_cache_roundtrip.2 ⟨100, none, some yamlSample⟩ 7
      yamlSample catalogSample 105 none rfl rfl (by decide) (by decide)).2.1,
    (ensure_fresh_cache_roundtrip.2 ⟨100, none, some yamlSample⟩ 7
      yamlSample catalogSample 105 none rfl rfl (by decide) (by decide)).2.2.1,
    (ensure_fresh_cache_roundtrip.2 ⟨100, none, some yamlSample⟩ 7
      yamlSample catalogSample 105 none rfl rfl (by decide) (by decide)).2.2.2⟩

theorem ensure_stale_fallback_witness :
    ((7 : Nat) < 100 - 10) ∧
    parseCatalog yamlSample = some catalogSample ∧
    (ensure ⟨100, some (10, yamlSample), none⟩ 7).result =
      .ok catalogSample ∧
    (ensure ⟨100, some (10, yamlSample), none⟩ 7).network = true ∧
    (ensure ⟨100, none, none⟩ 7).result = .error .unavailable :=
  ⟨by decide, by decide,
    (ensure_stale_fallback.1 ⟨100, some (10, yamlSample), none⟩ 7 10
      yamlSample catalogSample rfl (by decide) rfl (by decide)).1,
    (ensure_stale_fallback.1 ⟨100, some (10, yamlSample), none⟩ 7 10
      yamlSample catalogSample rfl (by decide) rfl (by decide)).2,
    (ensure_stale_fallback.2 ⟨100, none, none⟩ 7 rfl rfl).1⟩

end NCCN
